import Mathlib

/-!
Shallow embedding of the `tomato` pomodoro timer (tomato.go).

The timer state machine is embedded as pure Lean functions over a `Server`
record.  Go's `time.Time` and `time.Duration` are both modelled as `Int`
(nanoseconds, matching Go's `time.Duration` unit); `time.Now()` is passed
explicitly as a `now : Int` argument to every operation that reads the clock.
Go `panic("unexpected")` branches become `Option.none`; external side effects
(the start hook `executeCommandOnStart` and the expiry hook `executeCommand`)
are recorded as a `List Hook` event trace returned next to the new state.
-/

/-- Go: `ModeWork Mode = "work"` (a `Mode` is a Go string). -/
abbrev ModeWork : String := "work"

/-- Go: `ModeShortBreak Mode = "short-break"`. -/
abbrev ModeShortBreak : String := "short-break"

/-- Go: `ModeLongBreak Mode = "long-break"`. -/
abbrev ModeLongBreak : String := "long-break"

/-- Go: `StateStopped = "[S]"`. -/
abbrev StateStopped : String := "[S]"

/-- Go: `StatePaused = "[P]"`. -/
abbrev StatePaused : String := "[P]"

/-- Go: `StateRunning = "[R]"`. -/
abbrev StateRunning : String := "[R]"

/-- Go: `time.Second` in nanoseconds. -/
abbrev nsSecond : Int := 1000000000

/-- Go: `time.Minute` in nanoseconds. -/
abbrev nsMinute : Int := 60000000000

/-- The configurable globals of tomato.go that the core reads:
`N`, `DurationWork`, `DurationShortBreak`, `DurationLongBreak`,
`SepColon`, `SepBreak`.  `main` validates `0 < N < 10` and positive
durations before the server starts. -/
structure Config where
  N : Int
  DurationWork : Int
  DurationShortBreak : Int
  DurationLongBreak : Int
  SepColon : String
  SepBreak : String
deriving DecidableEq

/-- The compiled-in defaults: `-n=4 -work=25m -short=5m -long=15m -colon=: -colon-alt=:`. -/
def defaultConfig : Config :=
  { N := 4
    DurationWork := 25 * nsMinute
    DurationShortBreak := 5 * nsMinute
    DurationLongBreak := 15 * nsMinute
    SepColon := ":"
    SepBreak := ":" }

/-- Go: `func (mode Mode) Duration() time.Duration`; the `panic("unexpected")`
for a mode outside the three constants becomes `none`. -/
def ModeDuration (cfg : Config) (mode : String) : Option Int :=
  if mode = ModeWork then some cfg.DurationWork
  else if mode = ModeShortBreak then some cfg.DurationShortBreak
  else if mode = ModeLongBreak then some cfg.DurationLongBreak
  else none

/-- Go: `func (mode Mode) Sep() string`; the `panic("unexpected")` becomes `none`. -/
def ModeSep (cfg : Config) (mode : String) : Option String :=
  if mode = ModeWork then some cfg.SepColon
  else if mode = ModeShortBreak ∨ mode = ModeLongBreak then some cfg.SepBreak
  else none

/-- Go: `type Server struct { mode Mode; state string; t time.Time;
d time.Duration; count int }`. -/
structure Server where
  mode : String
  state : String
  t : Int
  d : Int
  count : Int
deriving DecidableEq

/-- Go: `func NewServer() *Server` — zero values for `t`, `d`, `count`. -/
def NewServer : Server :=
  { mode := ModeWork, state := StateStopped, t := 0, d := 0, count := 0 }

/-- Go: `func (s *Server) nextMode()`; the `default: panic("unexpected")`
branch becomes `none`. -/
def nextMode (cfg : Config) (s : Server) : Option Server :=
  if s.mode = ModeShortBreak ∨ s.mode = ModeLongBreak then
    some { s with count := if s.mode = ModeLongBreak then 0 else s.count
                  mode := ModeWork }
  else if s.mode = ModeWork then
    some { s with count := s.count + 1
                  mode := if s.count + 1 < cfg.N then ModeShortBreak else ModeLongBreak }
  else none

/-- The two external command hooks fired by the state machine. -/
inductive Hook where
  | onStart
  | onExpiry
deriving DecidableEq

/-- Go: `func (s *Server) RefreshStatus(output bool) string` — the state
effect: a Running timer whose deadline is strictly in the past
(`time.Now().After(s.t)`, i.e. `s.t < now`) is stopped, `nextMode` runs and
the expiry hook `executeCommand` fires.  The returned display string is
modelled separately by `formatTimerStr`. -/
def RefreshStatus (cfg : Config) (now : Int) (s : Server) : Option (Server × List Hook) :=
  if s.state = StateRunning then
    if s.t < now then
      match nextMode cfg { s with state := StateStopped } with
      | some s2 => some (s2, [Hook.onExpiry])
      | none => none
    else some (s, [])
  else some (s, [])

/-- Go: `func (s *Server) ActionStart(...)` — the state effect of
`POST /action/start`: Stopped starts a fresh interval, Paused resumes,
Running first refreshes and, when still Running, pauses. -/
def ActionStart (cfg : Config) (now : Int) (s : Server) : Option (Server × List Hook) :=
  if s.state = StateStopped then
    match ModeDuration cfg s.mode with
    | some dur => some ({ s with t := now + dur, state := StateRunning }, [Hook.onStart])
    | none => none
  else if s.state = StatePaused then
    some ({ s with t := now + s.d, state := StateRunning }, [Hook.onStart])
  else if s.state = StateRunning then
    match RefreshStatus cfg now s with
    | some (s2, hs) =>
      if s2.state = StateRunning then
        some ({ s2 with d := s2.t - now, state := StatePaused }, hs)
      else some (s2, hs)
    | none => none
  else some (s, [])

/-- Go: `func (s *Server) ActionStop(...)` — the state effect of
`POST /action/stop`: Running/Paused stop; Stopped switches mode manually
(Work goes to ShortBreak when `count < N` else LongBreak, ShortBreak goes to
Work, LongBreak goes to ShortBreak, `count` untouched); then the handler
calls `s.RefreshStatus(true)`. -/
def ActionStop (cfg : Config) (now : Int) (s : Server) : Option (Server × List Hook) :=
  let s1 :=
    if s.state = StateRunning ∨ s.state = StatePaused then
      { s with state := StateStopped }
    else if s.state = StateStopped then
      if s.mode = ModeWork then
        { s with mode := if s.count < cfg.N then ModeShortBreak else ModeLongBreak }
      else if s.mode = ModeShortBreak then { s with mode := ModeWork }
      else if s.mode = ModeLongBreak then { s with mode := ModeShortBreak }
      else s
    else s
  RefreshStatus cfg now s1

/-- Go: the state effect of `GET /status` (`Server.Status`): it calls
`s.RefreshStatus(true)` before rendering. -/
def Status (cfg : Config) (now : Int) (s : Server) : Option (Server × List Hook) :=
  RefreshStatus cfg now s

/-- Go: the state effect of `GET /time` (`Server.Time`): it calls
`s.RefreshStatus(true)` before rendering. -/
def TimeQuery (cfg : Config) (now : Int) (s : Server) : Option (Server × List Hook) :=
  RefreshStatus cfg now s

/-- Go: `fmt.Sprintf("%02d", n)` for the nonnegative values fed to it by
`formatTimer`: zero-pad to two digits. -/
def pad2 (n : Nat) : String :=
  if n < 10 then "0" ++ toString n else toString n

/-- Go: `func formatTimer(d time.Duration, sep string) string` — clamp
negative durations to 0, split into minutes/seconds, clamp minutes to 99,
render `"%02d%s%02d"`. -/
def formatTimer (d : Int) (sep : String) : String :=
  let d1 := if d < 0 then 0 else d
  let m := d1 / nsMinute
  let sec := (d1 % nsMinute) / nsSecond
  let m1 := if m > 99 then 99 else m
  pad2 m1.toNat ++ sep ++ pad2 sec.toNat

/-- Go: `func (s *Server) formatTimer() string` (the method): Stopped shows
the mode's full duration, Paused shows `s.d`, Running shows `s.t - now`;
the `panic("unexpected")` for an unknown state, and the panics of
`Mode.Duration` / `Mode.Sep` for an unknown mode, become `none`. -/
def formatTimerStr (cfg : Config) (now : Int) (s : Server) : Option String :=
  if s.state = StateStopped then
    match ModeDuration cfg s.mode, ModeSep cfg s.mode with
    | some dur, some sep => some (formatTimer dur sep)
    | _, _ => none
  else if s.state = StatePaused then
    match ModeSep cfg s.mode with
    | some sep => some (formatTimer s.d sep)
    | none => none
  else if s.state = StateRunning then
    match ModeSep cfg s.mode with
    | some sep => some (formatTimer (s.t - now) sep)
    | none => none
  else none

/-- The duration value actually displayed by `formatTimerStr`: the argument
the method passes to `formatTimer` (full mode duration / `s.d` / `s.t - now`)
after `formatTimer`'s negative clamp `if d < 0 { d = 0 }`. -/
def displayedDuration (cfg : Config) (now : Int) (s : Server) : Option Int :=
  (if s.state = StateStopped then ModeDuration cfg s.mode
   else if s.state = StatePaused then some s.d
   else if s.state = StateRunning then some (s.t - now)
   else none).map (fun d => if d < 0 then 0 else d)

/-- Go: the globals `lastText, lastIcon` read and written by `doRequest`. -/
structure NotifyState where
  lastText : String
  lastIcon : String
deriving DecidableEq

/-- Go: `func doRequest(text string, iconData string) error` — the
de-duplication logic: identical `(text, icon)` to the last-sent pair returns
without sending; otherwise the pair is remembered (via `defer`) and an
outbound call is made.  The `Bool` records whether an outbound HTTP request
was made. -/
def doRequest (st : NotifyState) (text iconData : String) : NotifyState × Bool :=
  if text = st.lastText ∧ iconData = st.lastIcon then (st, false)
  else ({ lastText := text, lastIcon := iconData }, true)

/-- One invocation of the timer state machine: the four externally
triggered operations (start/pause, stop/switch, and passive refresh — the
state effect shared by the ticker, `GET /status` and `GET /time`),
each at its own clock reading. -/
inductive Op where
  | start (now : Int)
  | stop (now : Int)
  | refresh (now : Int)
deriving DecidableEq

/-- Apply one operation to the server state, dropping the hook trace. -/
def applyOp (cfg : Config) (s : Server) : Op → Option Server
  | Op.start now => (ActionStart cfg now s).map Prod.fst
  | Op.stop now => (ActionStop cfg now s).map Prod.fst
  | Op.refresh now => (RefreshStatus cfg now s).map Prod.fst

/-- Run a list of operations from a state. -/
def runOps (cfg : Config) (s : Server) : List Op → Option Server
  | [] => some s
  | op :: l =>
    match applyOp cfg s op with
    | some s1 => runOps cfg s1 l
    | none => none

/-- A server state is reachable when some sequence of operations produces it
from `NewServer`. -/
def Reach (cfg : Config) (s : Server) : Prop :=
  ∃ l, runOps cfg NewServer l = some s

/-- The `mode` field holds one of the three values the Go switches expect. -/
def ModeOK (s : Server) : Prop :=
  s.mode = ModeWork ∨ s.mode = ModeShortBreak ∨ s.mode = ModeLongBreak

/-- The `state` field holds one of the three values the Go switches expect. -/
def StateOK (s : Server) : Prop :=
  s.state = StateStopped ∨ s.state = StatePaused ∨ s.state = StateRunning

/-- The inductive invariant maintained by the four operations. -/
def TimerInv (s : Server) : Prop :=
  ModeOK s ∧ StateOK s ∧ 0 ≤ s.count

/-- One "start the interval, then let it expire" round: `POST /action/start`
at time 0, then a passive refresh at a time past every configured duration. -/
def expireOnce (cfg : Config) (s : Server) : Option Server :=
  (ActionStart cfg 0 s).bind fun p =>
    (RefreshStatus cfg (cfg.DurationWork + cfg.DurationShortBreak + cfg.DurationLongBreak + 1)
      p.1).map fun q => q.1

/-- Iterate `expireOnce`. -/
def expireN (cfg : Config) : Nat → Server → Option Server
  | 0, s => some s
  | k + 1, s => (expireOnce cfg s).bind (expireN cfg k)

/-! Helper lemmas. -/

attribute [simp] ModeWork ModeShortBreak ModeLongBreak StateStopped StatePaused StateRunning

theorem pad2_length (n : Nat) (h : n < 100) : (pad2 n).length = 2 := by
  revert h
  revert n
  decide

theorem formatTimer_clamp (d : Int) (sep : String) :
    formatTimer (if d < 0 then 0 else d) sep = formatTimer d sep := by
  by_cases h : d < 0 <;> simp [formatTimer, h]

theorem nextMode_fields (cfg : Config) (s s' : Server) (h : nextMode cfg s = some s') :
    s'.state = s.state ∧ s'.t = s.t ∧ s'.d = s.d ∧ ModeOK s' ∧
    (s'.count = s.count + 1 ∨ s'.count = 0 ∨ s'.count = s.count) := by
  unfold nextMode at h
  by_cases h1 : s.mode = ModeShortBreak ∨ s.mode = ModeLongBreak
  · rw [if_pos h1] at h
    cases h
    refine ⟨rfl, rfl, rfl, Or.inl rfl, ?_⟩
    by_cases h2 : s.mode = ModeLongBreak <;> simp [h2]
  · rw [if_neg h1] at h
    by_cases h2 : s.mode = ModeWork
    · rw [if_pos h2] at h
      cases h
      refine ⟨rfl, rfl, rfl, ?_, Or.inl rfl⟩
      by_cases h3 : s.count + 1 < cfg.N <;> simp [ModeOK, h3]
    · rw [if_neg h2] at h
      exact absurd h (by simp)

theorem nextMode_isSome (cfg : Config) (s : Server) (h : ModeOK s) :
    (nextMode cfg s).isSome = true := by
  rcases h with h | h | h <;> simp [nextMode, h]

theorem refresh_inv (cfg : Config) (now : Int) (s s' : Server) (hk : List Hook)
    (h : RefreshStatus cfg now s = some (s', hk)) (hv : TimerInv s) : TimerInv s' := by
  obtain ⟨hm, hs, hc⟩ := hv
  unfold RefreshStatus at h
  by_cases h1 : s.state = StateRunning
  · rw [if_pos h1] at h
    by_cases h2 : s.t < now
    · rw [if_pos h2] at h
      cases hnm : nextMode cfg { s with state := StateStopped } with
      | none => rw [hnm] at h; exact absurd h (by simp)
      | some s2 =>
        rw [hnm] at h
        rw [Option.some.injEq, Prod.mk.injEq] at h
        obtain ⟨h3, h4⟩ := h
        subst h3
        obtain ⟨hst, ht, hd, hmOK, hcnt⟩ := nextMode_fields _ _ _ hnm
        refine ⟨hmOK, Or.inl hst, ?_⟩
        rcases hcnt with h5 | h5 | h5 <;> rw [h5] <;> dsimp <;> omega
    · rw [if_neg h2] at h
      rw [Option.some.injEq, Prod.mk.injEq] at h
      obtain ⟨h3, h4⟩ := h
      subst h3
      exact ⟨hm, hs, hc⟩
  · rw [if_neg h1] at h
    rw [Option.some.injEq, Prod.mk.injEq] at h
    obtain ⟨h3, h4⟩ := h
    subst h3
    exact ⟨hm, hs, hc⟩

theorem start_inv (cfg : Config) (now : Int) (s s' : Server) (hk : List Hook)
    (h : ActionStart cfg now s = some (s', hk)) (hv : TimerInv s) : TimerInv s' := by
  obtain ⟨hm, hs, hc⟩ := hv
  unfold ActionStart at h
  rcases hs with h1 | h1 | h1
  · rcases hm with h2 | h2 | h2 <;>
      simp only [h1, h2, ModeDuration, if_pos rfl] at h <;>
      simp at h <;>
      obtain ⟨h3, h4⟩ := h <;>
      rw [← h3] <;>
      exact ⟨by simp [ModeOK, h2], by simp [StateOK], hc⟩
  · simp only [h1] at h
    simp at h
    obtain ⟨h3, h4⟩ := h
    rw [← h3]
    exact ⟨hm, by simp [StateOK], hc⟩
  · simp only [h1] at h
    simp at h
    cases hr : RefreshStatus cfg now s with
    | none => rw [hr] at h; exact absurd h (by simp)
    | some p =>
      obtain ⟨s2, hk2⟩ := p
      rw [hr] at h
      have hp : TimerInv s2 := refresh_inv cfg now s s2 hk2 hr ⟨hm, Or.inr (Or.inr h1), hc⟩
      obtain ⟨hm1, hs1, hc1⟩ := hp
      dsimp only at h
      by_cases h4 : s2.state = StateRunning
      · rw [if_pos h4] at h
        simp at h
        obtain ⟨h5, h6⟩ := h
        rw [← h5]
        exact ⟨hm1, by simp [StateOK], hc1⟩
      · rw [if_neg h4] at h
        simp at h
        obtain ⟨h5, h6⟩ := h
        rw [← h5]
        exact ⟨hm1, hs1, hc1⟩

theorem stop_inv (cfg : Config) (now : Int) (s s' : Server) (hk : List Hook)
    (h : ActionStop cfg now s = some (s', hk)) (hv : TimerInv s) : TimerInv s' := by
  obtain ⟨hm, hs, hc⟩ := hv
  unfold ActionStop at h
  refine refresh_inv cfg now _ s' hk h ?_
  rcases hs with h1 | h1 | h1
  · rw [if_neg (by rw [h1]; decide), if_pos h1]
    rcases hm with h2 | h2 | h2 <;> rw [h2] <;>
      refine ⟨?_, by simp [StateOK, h1], hc⟩
    · simp only [if_pos rfl]
      by_cases h3 : s.count < cfg.N <;> simp [ModeOK, h3]
    · simp [ModeOK]
    · simp [ModeOK]
  · rw [if_pos (by rw [h1]; simp)]
    exact ⟨hm, by simp [StateOK], hc⟩
  · rw [if_pos (by rw [h1]; simp)]
    exact ⟨hm, by simp [StateOK], hc⟩

theorem applyOp_inv (cfg : Config) (s s' : Server) (op : Op)
    (h : applyOp cfg s op = some s') (hv : TimerInv s) : TimerInv s' := by
  cases op with
  | start now =>
    simp only [applyOp] at h
    cases hr : ActionStart cfg now s with
    | none => rw [hr] at h; exact absurd h (by simp)
    | some p =>
      rw [hr] at h
      simp at h
      rw [← h]
      exact start_inv cfg now s p.1 p.2 hr hv
  | stop now =>
    simp only [applyOp] at h
    cases hr : ActionStop cfg now s with
    | none => rw [hr] at h; exact absurd h (by simp)
    | some p =>
      rw [hr] at h
      simp at h
      rw [← h]
      exact stop_inv cfg now s p.1 p.2 hr hv
  | refresh now =>
    simp only [applyOp] at h
    cases hr : RefreshStatus cfg now s with
    | none => rw [hr] at h; exact absurd h (by simp)
    | some p =>
      rw [hr] at h
      simp at h
      rw [← h]
      exact refresh_inv cfg now s p.1 p.2 hr hv

theorem runOps_inv (cfg : Config) (l : List Op) :
    ∀ s s' : Server, runOps cfg s l = some s' → TimerInv s → TimerInv s' := by
  induction l with
  | nil =>
    intro s s' h hv
    unfold runOps at h
    rw [Option.some.injEq] at h
    rw [← h]
    exact hv
  | cons op l ih =>
    intro s s' h hv
    unfold runOps at h
    cases hap : applyOp cfg s op with
    | none => rw [hap] at h; exact absurd h (by simp)
    | some s1 =>
      rw [hap] at h
      exact ih s1 s' h (applyOp_inv cfg s s1 op hap hv)

theorem newServer_inv : TimerInv NewServer :=
  ⟨Or.inl rfl, Or.inl rfl, le_refl 0⟩

theorem reach_inv (cfg : Config) (s : Server) (h : Reach cfg s) : TimerInv s := by
  obtain ⟨l, hl⟩ := h
  exact runOps_inv cfg l NewServer s hl newServer_inv

theorem duration_isSome (cfg : Config) (s : Server) (hm : ModeOK s) :
    (ModeDuration cfg s.mode).isSome = true := by
  rcases hm with h | h | h <;> simp [ModeDuration, h]

theorem sep_isSome (cfg : Config) (s : Server) (hm : ModeOK s) :
    (ModeSep cfg s.mode).isSome = true := by
  rcases hm with h | h | h <;> simp [ModeSep, h]

theorem refresh_isSome (cfg : Config) (now : Int) (s : Server) (hv : TimerInv s) :
    (RefreshStatus cfg now s).isSome = true := by
  obtain ⟨hm, hs, hc⟩ := hv
  unfold RefreshStatus
  by_cases h1 : s.state = StateRunning
  · rw [if_pos h1]
    by_cases h2 : s.t < now
    · rw [if_pos h2]
      have hnm := nextMode_isSome cfg { s with state := StateStopped } (by simpa [ModeOK] using hm)
      cases h3 : nextMode cfg { s with state := StateStopped } with
      | none => rw [h3] at hnm; simp at hnm
      | some s2 => simp
    · rw [if_neg h2]; simp
  · rw [if_neg h1]; simp

theorem start_isSome (cfg : Config) (now : Int) (s : Server) (hv : TimerInv s) :
    (ActionStart cfg now s).isSome = true := by
  obtain ⟨hm, hs, hc⟩ := hv
  unfold ActionStart
  rcases hs with h1 | h1 | h1
  · rw [if_pos h1]
    have hd := duration_isSome cfg s hm
    cases h2 : ModeDuration cfg s.mode with
    | none => rw [h2] at hd; simp at hd
    | some dur => simp
  · rw [if_neg (by rw [h1]; decide), if_pos h1]
    simp
  · rw [if_neg (by rw [h1]; decide), if_neg (by rw [h1]; decide), if_pos h1]
    have hr := refresh_isSome cfg now s ⟨hm, Or.inr (Or.inr h1), hc⟩
    cases h2 : RefreshStatus cfg now s with
    | none => rw [h2] at hr; simp at hr
    | some p =>
      obtain ⟨s2, hk2⟩ := p
      dsimp only
      by_cases h4 : s2.state = StateRunning
      · rw [if_pos h4]; simp
      · rw [if_neg h4]; simp

theorem stopSwitch_inv (cfg : Config) (s : Server) (hv : TimerInv s) :
    TimerInv
      (if s.state = StateRunning ∨ s.state = StatePaused then
        { s with state := StateStopped }
      else if s.state = StateStopped then
        if s.mode = ModeWork then
          { s with mode := if s.count < cfg.N then ModeShortBreak else ModeLongBreak }
        else if s.mode = ModeShortBreak then { s with mode := ModeWork }
        else if s.mode = ModeLongBreak then { s with mode := ModeShortBreak }
        else s
      else s) := by
  obtain ⟨hm, hs, hc⟩ := hv
  rcases hs with h1 | h1 | h1
  · rw [if_neg (by rw [h1]; decide), if_pos h1]
    rcases hm with h2 | h2 | h2 <;> rw [h2] <;>
      refine ⟨?_, by simp [StateOK, h1], hc⟩
    · simp only [if_pos rfl]
      by_cases h3 : s.count < cfg.N <;> simp [ModeOK, h3]
    · simp [ModeOK]
    · simp [ModeOK]
  · rw [if_pos (by rw [h1]; simp)]
    exact ⟨hm, by simp [StateOK], hc⟩
  · rw [if_pos (by rw [h1]; simp)]
    exact ⟨hm, by simp [StateOK], hc⟩

theorem stop_isSome (cfg : Config) (now : Int) (s : Server) (hv : TimerInv s) :
    (ActionStop cfg now s).isSome = true := by
  unfold ActionStop
  exact refresh_isSome cfg now _ (stopSwitch_inv cfg s hv)

theorem fmtStr_isSome (cfg : Config) (now : Int) (s : Server) (hv : TimerInv s) :
    (formatTimerStr cfg now s).isSome = true := by
  obtain ⟨hm, hs, hc⟩ := hv
  unfold formatTimerStr
  rcases hs with h1 | h1 | h1 <;> rcases hm with h2 | h2 | h2 <;>
    simp [h1, h2, ModeDuration, ModeSep]

theorem nextMode_work (cfg : Config) (s : Server) (hm : s.mode = ModeWork) :
    nextMode cfg s =
      some { s with count := s.count + 1
                    mode := if s.count + 1 < cfg.N then ModeShortBreak else ModeLongBreak } := by
  unfold nextMode
  rw [hm]
  simp

theorem nextMode_short (cfg : Config) (s : Server) (hm : s.mode = ModeShortBreak) :
    nextMode cfg s = some { s with mode := ModeWork } := by
  unfold nextMode
  rw [hm]
  simp

theorem nextMode_long (cfg : Config) (s : Server) (hm : s.mode = ModeLongBreak) :
    nextMode cfg s = some { s with count := 0, mode := ModeWork } := by
  unfold nextMode
  rw [hm]
  simp

theorem refresh_not_expired (cfg : Config) (now : Int) (s : Server)
    (h : ¬(s.state = StateRunning ∧ s.t < now)) :
    RefreshStatus cfg now s = some (s, []) := by
  unfold RefreshStatus
  by_cases h1 : s.state = StateRunning
  · rw [if_pos h1, if_neg (fun hc => h ⟨h1, hc⟩)]
  · rw [if_neg h1]

theorem refresh_expired_work (cfg : Config) (now : Int) (s : Server)
    (hR : s.state = StateRunning) (ht : s.t < now) (hm : s.mode = ModeWork) :
    RefreshStatus cfg now s =
      some ({ s with state := StateStopped, count := s.count + 1
                     mode := if s.count + 1 < cfg.N then ModeShortBreak else ModeLongBreak },
        [Hook.onExpiry]) := by
  unfold RefreshStatus
  rw [if_pos hR, if_pos ht, nextMode_work cfg { s with state := StateStopped } hm]

theorem refresh_expired_short (cfg : Config) (now : Int) (s : Server)
    (hR : s.state = StateRunning) (ht : s.t < now) (hm : s.mode = ModeShortBreak) :
    RefreshStatus cfg now s =
      some ({ s with state := StateStopped, mode := ModeWork }, [Hook.onExpiry]) := by
  unfold RefreshStatus
  rw [if_pos hR, if_pos ht, nextMode_short cfg { s with state := StateStopped } hm]

theorem refresh_expired_long (cfg : Config) (now : Int) (s : Server)
    (hR : s.state = StateRunning) (ht : s.t < now) (hm : s.mode = ModeLongBreak) :
    RefreshStatus cfg now s =
      some ({ s with state := StateStopped, mode := ModeWork, count := 0 }, [Hook.onExpiry]) := by
  unfold RefreshStatus
  rw [if_pos hR, if_pos ht, nextMode_long cfg { s with state := StateStopped } hm]

theorem start_stopped (cfg : Config) (now : Int) (s : Server) (dur : Int)
    (hs : s.state = StateStopped) (hdur : ModeDuration cfg s.mode = some dur) :
    ActionStart cfg now s =
      some ({ s with t := now + dur, state := StateRunning }, [Hook.onStart]) := by
  unfold ActionStart
  rw [if_pos hs, hdur]

theorem expireOnce_work (cfg : Config) (s : Server)
    (hS : 0 < cfg.DurationShortBreak) (hL : 0 < cfg.DurationLongBreak)
    (hs : s.state = StateStopped) (hm : s.mode = ModeWork) :
    expireOnce cfg s =
      some { s with state := StateStopped, t := cfg.DurationWork, count := s.count + 1
                    mode := if s.count + 1 < cfg.N then ModeShortBreak else ModeLongBreak } := by
  unfold expireOnce
  rw [start_stopped cfg 0 s cfg.DurationWork hs (by rw [hm]; simp [ModeDuration])]
  rw [Option.some_bind']
  dsimp only
  rw [refresh_expired_work cfg _ { s with state := StateRunning, t := 0 + cfg.DurationWork }
    rfl (by dsimp; omega) hm]
  simp

theorem expireOnce_short (cfg : Config) (s : Server)
    (hW : 0 < cfg.DurationWork) (hL : 0 < cfg.DurationLongBreak)
    (hs : s.state = StateStopped) (hm : s.mode = ModeShortBreak) :
    expireOnce cfg s =
      some { s with state := StateStopped, t := cfg.DurationShortBreak, mode := ModeWork } := by
  unfold expireOnce
  rw [start_stopped cfg 0 s cfg.DurationShortBreak hs (by rw [hm]; simp [ModeDuration])]
  rw [Option.some_bind']
  dsimp only
  rw [refresh_expired_short cfg _ { s with state := StateRunning, t := 0 + cfg.DurationShortBreak }
    rfl (by dsimp; omega) hm]
  simp

theorem expireOnce_long (cfg : Config) (s : Server)
    (hW : 0 < cfg.DurationWork) (hS : 0 < cfg.DurationShortBreak)
    (hs : s.state = StateStopped) (hm : s.mode = ModeLongBreak) :
    expireOnce cfg s =
      some { s with state := StateStopped, t := cfg.DurationLongBreak, mode := ModeWork
                    count := 0 } := by
  unfold expireOnce
  rw [start_stopped cfg 0 s cfg.DurationLongBreak hs (by rw [hm]; simp [ModeDuration])]
  rw [Option.some_bind']
  dsimp only
  rw [refresh_expired_long cfg _ { s with state := StateRunning, t := 0 + cfg.DurationLongBreak }
    rfl (by dsimp; omega) hm]
  simp

theorem expireN_succ (cfg : Config) (k : Nat) (s : Server) :
    expireN cfg (k + 1) s = (expireOnce cfg s).bind (expireN cfg k) := rfl

theorem refresh_nonrunning (cfg : Config) (now : Int) (s : Server)
    (h : ¬ s.state = StateRunning) :
    RefreshStatus cfg now s = some (s, []) := by
  unfold RefreshStatus
  rw [if_neg h]

theorem expireN_add (cfg : Config) (a b : Nat) :
    ∀ s, expireN cfg (a + b) s = (expireN cfg a s).bind (expireN cfg b) := by
  induction a with
  | zero => intro s; simp [expireN]
  | succ a ih =>
    intro s
    rw [show a + 1 + b = (a + b) + 1 from by omega, expireN_succ, expireN_succ]
    cases hx : expireOnce cfg s with
    | none => simp
    | some s1 => simp [ih s1]

theorem expireN_work_rounds (cfg : Config)
    (hW : 0 < cfg.DurationWork) (hS : 0 < cfg.DurationShortBreak)
    (hL : 0 < cfg.DurationLongBreak) :
    ∀ (j : Nat) (s : Server), s.state = StateStopped → s.mode = ModeWork →
      s.count + (j : Int) < cfg.N →
      ∃ s', expireN cfg (2 * j) s = some s' ∧ s'.state = StateStopped ∧
        s'.mode = ModeWork ∧ s'.count = s.count + (j : Int) ∧ s'.d = s.d := by
  intro j
  induction j with
  | zero =>
    intro s h1 h2 h3
    exact ⟨s, by simp [expireN], h1, h2, by simp, rfl⟩
  | succ j ih =>
    intro s h1 h2 h3
    have hlt : s.count + 1 < cfg.N := by push_cast at h3; omega
    have e1 := expireOnce_work cfg s hS hL h1 h2
    rw [if_pos hlt] at e1
    have e2 := expireOnce_short cfg
      { s with state := StateStopped, t := cfg.DurationWork, count := s.count + 1
               mode := ModeShortBreak } hW hL rfl rfl
    obtain ⟨s', hrun, hst, hmo, hcnt, hd⟩ := ih
      { s with state := StateStopped, t := cfg.DurationShortBreak, count := s.count + 1
               mode := ModeWork }
      rfl rfl (by push_cast at h3 ⊢; omega)
    refine ⟨s', ?_, hst, hmo, ?_, hd⟩
    · rw [show 2 * (j + 1) = (2 * j + 1) + 1 from by omega]
      rw [expireN_succ, e1, Option.some_bind', expireN_succ, e2, Option.some_bind']
      exact hrun
    · rw [hcnt]
      push_cast
      omega

/-! Claim theorems. -/

/-- C1 counterexample: from `{LongBreak, Stopped, count=0}` a manual
stop/switch yields `{ShortBreak, Stopped, count=0}`, not `{Work, Stopped,
count=0}` as the claim states. -/
theorem c1_counterexample :
    ActionStop defaultConfig 0
        { mode := ModeLongBreak, state := StateStopped, t := 0, d := 0, count := 0 } =
      some ({ mode := ModeShortBreak, state := StateStopped, t := 0, d := 0, count := 0 }, []) ∧
    ModeShortBreak ≠ ModeWork := by
  decide

/-- C1 (amended): for every Timer in state Stopped, the stop/switch
operation advances the mode one step using the current `completedCount`
without incrementing it (and fires no hook): Work goes to ShortBreak when
`count < N` and to LongBreak otherwise, ShortBreak goes to Work, and
LongBreak goes to ShortBreak with `completedCount` left untouched — so from
`{LongBreak, Stopped, count=0}` the operation yields
`{ShortBreak, Stopped, count=0}`. -/
theorem c1_stop_while_stopped (cfg : Config) (now : Int) (s : Server)
    (h : s.state = StateStopped) :
    ActionStop cfg now s =
      some ({ s with mode :=
        if s.mode = ModeWork then
          if s.count < cfg.N then ModeShortBreak else ModeLongBreak
        else if s.mode = ModeShortBreak then ModeWork
        else if s.mode = ModeLongBreak then ModeShortBreak
        else s.mode }, []) := by
  unfold ActionStop
  rw [if_neg (by rw [h]; decide), if_pos h]
  dsimp only
  by_cases h1 : s.mode = ModeWork
  · simp only [h1]
    simp
    exact refresh_nonrunning cfg now _ (by simp [h])
  · by_cases h2 : s.mode = ModeShortBreak
    · simp [h1, h2]
      exact refresh_nonrunning cfg now _ (by simp [h])
    · by_cases h3 : s.mode = ModeLongBreak
      · simp [h1, h2, h3]
        exact refresh_nonrunning cfg now _ (by simp [h])
      · simp [h1, h2, h3]
        exact refresh_nonrunning cfg now _ (by simp [h])

/-- C1 witness: a concrete manual switch while Stopped (Work, count 2,
`N = 4`) moving to ShortBreak without touching the count. -/
theorem c1_witness :
    ActionStop defaultConfig 0
        { mode := ModeWork, state := StateStopped, t := 0, d := 0, count := 2 } =
      some ({ mode := ModeShortBreak, state := StateStopped, t := 0, d := 0, count := 2 }, []) := by
  have h := c1_stop_while_stopped defaultConfig 0
    { mode := ModeWork, state := StateStopped, t := 0, d := 0, count := 2 } rfl
  simpa using h

/-- C2 counterexample: after seven start/expire rounds from the initial
state (default `N = 4`) the timer has just entered LongBreak with
`completedCount = 4 = N`, refuting both `completedCount < N` and
"`completedCount` is set to 0 at the moment mode becomes LongBreak". -/
theorem c2_counterexample :
    runOps defaultConfig NewServer
        [Op.start 0, Op.refresh 1600000000000, Op.start 0, Op.refresh 1600000000000,
         Op.start 0, Op.refresh 1600000000000, Op.start 0, Op.refresh 1600000000000,
         Op.start 0, Op.refresh 1600000000000, Op.start 0, Op.refresh 1600000000000,
         Op.start 0, Op.refresh 1600000000000] =
      some { mode := ModeLongBreak, state := StateStopped, t := 1500000000000, d := 0
             count := 4 } ∧
    ¬ ((4 : Int) < defaultConfig.N ∧ (4 : Int) = 0) ∧ ¬ ((4 : Int) < defaultConfig.N) := by
  decide

/-- C2 (amended): in every reachable state `0 ≤ completedCount`; the counter
is reset to 0 at the moment the automatic advance leaves LongBreak for Work
(not when LongBreak is entered, and it is not bounded by `N`). -/
theorem c2_count_invariant (cfg : Config) (s : Server) (h : Reach cfg s)
    (s1 s2 : Server) (hm : s1.mode = ModeLongBreak) (hn : nextMode cfg s1 = some s2) :
    0 ≤ s.count ∧ s2.count = 0 ∧ s2.mode = ModeWork := by
  rw [nextMode_long cfg s1 hm, Option.some.injEq] at hn
  exact ⟨(reach_inv cfg s h).2.2, by rw [← hn], by rw [← hn]⟩

/-- C2 witness: the invariant instantiated at the initial state and at a
concrete LongBreak-to-Work automatic advance. -/
theorem c2_witness :
    0 ≤ NewServer.count ∧
    ({ mode := ModeWork, state := StateStopped, t := 0, d := 0, count := 0 } : Server).count = 0 ∧
    ({ mode := ModeWork, state := StateStopped, t := 0, d := 0, count := 0 } : Server).mode =
      ModeWork :=
  c2_count_invariant defaultConfig NewServer ⟨[], rfl⟩
    { mode := ModeLongBreak, state := StateStopped, t := 0, d := 0, count := 5 }
    { mode := ModeWork, state := StateStopped, t := 0, d := 0, count := 0 }
    rfl (by decide)

/-- C3 (confirmed): automatic expiry of a Running timer whose deadline has
passed increments `completedCount` by exactly 1 when leaving Work, leaves it
unchanged when leaving ShortBreak, and resets it to 0 when leaving
LongBreak; and starting from `completedCount = 0`, after `2N - 1`
start/expire steps (the N-th Work completion) the timer is in LongBreak
with `completedCount = N`, and the following completion leaves LongBreak
for Work resetting `completedCount` to 0. -/
theorem c3_expiry_cycle (cfg : Config) (now : Int) (s : Server) (n : Nat)
    (hW : 0 < cfg.DurationWork) (hS : 0 < cfg.DurationShortBreak)
    (hL : 0 < cfg.DurationLongBreak) (hn : cfg.N = (n : Int)) (h1 : 1 ≤ n)
    (hR : s.state = StateRunning) (ht : s.t < now) :
    (s.mode = ModeWork →
      RefreshStatus cfg now s =
        some ({ s with state := StateStopped, count := s.count + 1
                       mode := if s.count + 1 < cfg.N then ModeShortBreak else ModeLongBreak },
          [Hook.onExpiry])) ∧
    (s.mode = ModeShortBreak →
      RefreshStatus cfg now s =
        some ({ s with state := StateStopped, mode := ModeWork }, [Hook.onExpiry])) ∧
    (s.mode = ModeLongBreak →
      RefreshStatus cfg now s =
        some ({ s with state := StateStopped, mode := ModeWork, count := 0 }, [Hook.onExpiry])) ∧
    (∃ sL sW, expireN cfg (2 * n - 1) NewServer = some sL ∧
      sL.mode = ModeLongBreak ∧ sL.state = StateStopped ∧ sL.count = cfg.N ∧
      expireOnce cfg sL = some sW ∧ sW.mode = ModeWork ∧ sW.state = StateStopped ∧
      sW.count = 0) := by
  refine ⟨refresh_expired_work cfg now s hR ht, refresh_expired_short cfg now s hR ht,
    refresh_expired_long cfg now s hR ht, ?_⟩
  obtain ⟨s', hrun, hst, hmo, hcnt, hd⟩ :=
    expireN_work_rounds cfg hW hS hL (n - 1) NewServer rfl rfl
      (by rw [hn]; show (0 : Int) + ((n - 1 : Nat) : Int) < (n : Int); omega)
  have hcnt' : s'.count = ((n : Int) - 1) := by
    rw [hcnt]
    show (0 : Int) + ((n - 1 : Nat) : Int) = (n : Int) - 1
    omega
  have e1 := expireOnce_work cfg s' hS hL hst hmo
  rw [if_neg (by rw [hcnt', hn]; omega)] at e1
  refine ⟨{ s' with state := StateStopped, t := cfg.DurationWork, count := s'.count + 1
                    mode := ModeLongBreak },
    { mode := ModeWork, state := StateStopped, t := cfg.DurationLongBreak, d := s'.d
      count := 0 },
    ?_, rfl, rfl, ?_, ?_, rfl, rfl, rfl⟩
  · -- the N-th completion: 2n - 1 = 2(n-1) + 1 expire steps
    rw [show 2 * n - 1 = 2 * (n - 1) + 1 from by omega, expireN_add, hrun,
      Option.some_bind', expireN_succ, e1, Option.some_bind']
    rfl
  · show s'.count + 1 = cfg.N
    rw [hcnt', hn]
    omega
  · exact expireOnce_long cfg _ hW hS rfl rfl

/-- C3 witness: a concrete expired Work interval (default config) whose
refresh increments the count to 1 and moves to ShortBreak. -/
theorem c3_witness :
    RefreshStatus defaultConfig 1
        { mode := ModeWork, state := StateRunning, t := 0, d := 0, count := 0 } =
      some ({ mode := ModeShortBreak, state := StateStopped, t := 0, d := 0, count := 1 },
        [Hook.onExpiry]) := by
  have h := (c3_expiry_cycle defaultConfig 1
    { mode := ModeWork, state := StateRunning, t := 0, d := 0, count := 0 } 4
    (by decide) (by decide) (by decide) rfl (by decide) rfl (by decide)).1 rfl
  simpa using h

/-- C4 counterexample: a `GET /status` on a Running timer whose deadline has
passed mutates the Timer (state and mode change, count increments), so the
claim that a status query leaves every field unchanged fails. -/
theorem c4_counterexample :
    Status defaultConfig 10 { mode := ModeWork, state := StateRunning, t := 3, d := 0, count := 0 } =
      some ({ mode := ModeShortBreak, state := StateStopped, t := 3, d := 0, count := 1 },
        [Hook.onExpiry]) ∧
    ({ mode := ModeShortBreak, state := StateStopped, t := 3, d := 0, count := 1 } : Server) ≠
      { mode := ModeWork, state := StateRunning, t := 3, d := 0, count := 0 } := by
  decide

/-- C4 (amended): the `/status` and `/time` read operations leave every
Timer field — mode, state, deadline, remaining, completedCount — unchanged
(and fire no hook) except for the passive refresh they trigger first: in
every state other than "Running with deadline strictly passed" the state is
returned exactly as it was. -/
theorem c4_status_readonly (cfg : Config) (now : Int) (s : Server)
    (h : ¬(s.state = StateRunning ∧ s.t < now)) :
    Status cfg now s = some (s, []) ∧ TimeQuery cfg now s = some (s, []) := by
  unfold Status TimeQuery
  exact ⟨refresh_not_expired cfg now s h, refresh_not_expired cfg now s h⟩

/-- C4 witness: a status and a time query on the initial state, both
returning it untouched. -/
theorem c4_witness :
    Status defaultConfig 0 NewServer = some (NewServer, []) ∧
    TimeQuery defaultConfig 0 NewServer = some (NewServer, []) :=
  c4_status_readonly defaultConfig 0 NewServer (by decide)

/-- C5 counterexample: a Running timer with `now = deadline` (so
`now ≥ deadline` holds) is left untouched by passive refresh — the code only
expires when `now` is strictly after the deadline — refuting the claim that
refresh stops the timer whenever `now ≥ deadline`. -/
theorem c5_counterexample :
    RefreshStatus defaultConfig 0
        { mode := ModeWork, state := StateRunning, t := 0, d := 0, count := 0 } =
      some ({ mode := ModeWork, state := StateRunning, t := 0, d := 0, count := 0 }, []) ∧
    StateRunning ≠ StateStopped := by
  decide

/-- C5 (amended): for every Running timer, passive refresh invoked at `now`
strictly after the deadline (`deadline < now`) sets state to Stopped,
advances the mode via `nextMode` (incrementing `completedCount` when leaving
Work) and fires the expiry hook; when `now ≤ deadline` it changes nothing
and fires nothing. -/
theorem c5_refresh_expiry (cfg : Config) (now : Int) (s : Server)
    (hR : s.state = StateRunning) (hm : ModeOK s) :
    (s.t < now → ∃ s2, RefreshStatus cfg now s = some (s2, [Hook.onExpiry]) ∧
      s2.state = StateStopped ∧
      nextMode cfg { s with state := StateStopped } = some s2 ∧
      (s.mode = ModeWork → s2.count = s.count + 1)) ∧
    (¬ s.t < now → RefreshStatus cfg now s = some (s, [])) := by
  constructor
  · intro ht
    rcases hm with h2 | h2 | h2
    · exact ⟨_, refresh_expired_work cfg now s hR ht h2, rfl,
        nextMode_work cfg { s with state := StateStopped } h2, fun _ => rfl⟩
    · exact ⟨_, refresh_expired_short cfg now s hR ht h2, rfl,
        nextMode_short cfg { s with state := StateStopped } h2,
        fun hw => absurd (h2.symm.trans hw) (by decide)⟩
    · exact ⟨_, refresh_expired_long cfg now s hR ht h2, rfl,
        nextMode_long cfg { s with state := StateStopped } h2,
        fun hw => absurd (h2.symm.trans hw) (by decide)⟩
  · exact fun hnt => refresh_not_expired cfg now s (fun hc => hnt hc.2)

/-- C5 witness: a Running timer with the deadline still ahead is returned
unchanged by the refresh. -/
theorem c5_witness :
    RefreshStatus defaultConfig 0
        { mode := ModeWork, state := StateRunning, t := 5, d := 0, count := 0 } =
      some ({ mode := ModeWork, state := StateRunning, t := 5, d := 0, count := 0 }, []) :=
  (c5_refresh_expiry defaultConfig 0
    { mode := ModeWork, state := StateRunning, t := 5, d := 0, count := 0 }
    rfl (Or.inl rfl)).2 (by decide)

theorem nonneg_clamp (x : Int) (h : 0 ≤ x) : (if x < 0 then 0 else x) = x :=
  if_neg (by omega)

theorem formatTimer_clamp2 (a b : Int) (sep : String) :
    formatTimer (if a < b then 0 else a - b) sep = formatTimer (a - b) sep := by
  have h := formatTimer_clamp (a - b) sep
  simpa [sub_neg] using h

/-- C6 (confirmed): the status projection renders exactly the displayed
duration with the mode's separator, and the displayed duration is the full
configured duration when Stopped, the stored `remaining` (`s.d`) when
Paused, and `deadline − now` floored at zero when Running. -/
theorem c6_displayed_duration (cfg : Config) (now : Int) (s : Server)
    (hm : ModeOK s) (hs : StateOK s)
    (hW : 0 ≤ cfg.DurationWork) (hS : 0 ≤ cfg.DurationShortBreak)
    (hL : 0 ≤ cfg.DurationLongBreak) (hd : 0 ≤ s.d) :
    formatTimerStr cfg now s =
      (displayedDuration cfg now s).bind
        (fun dd => (ModeSep cfg s.mode).map (fun sep => formatTimer dd sep)) ∧
    (s.state = StateStopped → displayedDuration cfg now s = ModeDuration cfg s.mode) ∧
    (s.state = StatePaused → displayedDuration cfg now s = some s.d) ∧
    (s.state = StateRunning → displayedDuration cfg now s = some (max 0 (s.t - now))) := by
  refine ⟨?_, ?_, ?_, ?_⟩
  · rcases hs with h1 | h1 | h1 <;> rcases hm with h2 | h2 | h2 <;>
      simp [formatTimerStr, displayedDuration, ModeSep, ModeDuration, h1, h2,
        formatTimer_clamp, formatTimer_clamp2]
  · intro h1
    rcases hm with h2 | h2 | h2
    · simp [displayedDuration, ModeDuration, h1, h2, nonneg_clamp _ hW]
    · simp [displayedDuration, ModeDuration, h1, h2, nonneg_clamp _ hS]
    · simp [displayedDuration, ModeDuration, h1, h2, nonneg_clamp _ hL]
  · intro h1
    simp [displayedDuration, h1, nonneg_clamp _ hd]
  · intro h1
    unfold displayedDuration
    rw [if_neg (by rw [h1]; decide), if_neg (by rw [h1]; decide), if_pos h1,
      Option.map_some']
    rcases le_or_lt 0 (s.t - now) with h | h
    · rw [nonneg_clamp _ h, max_eq_right h]
    · rw [if_pos h, max_eq_left (by omega)]

/-- C6 witness: the displayed duration of the initial (Stopped, Work)
state is the full configured Work duration. -/
theorem c6_witness :
    displayedDuration defaultConfig 0 NewServer = ModeDuration defaultConfig NewServer.mode :=
  (c6_displayed_duration defaultConfig 0 NewServer (Or.inl rfl) (Or.inl rfl)
    (by decide) (by decide) (by decide) (by decide)).2.1 rfl

/-- C7 (confirmed): pausing a Running timer that was resumed from Paused at
time `t1` and paused again at a later time `t2 ≥ t1` never increases the
stored remaining duration: the remaining time at the second pause is at most
the remaining time at the first pause. -/
theorem c7_pause_monotone (cfg : Config) (t1 t2 : Int) (s s1 s2 : Server)
    (k1 k2 : List Hook) (hs : s.state = StatePaused) (ht : t1 ≤ t2)
    (h1 : ActionStart cfg t1 s = some (s1, k1))
    (h2 : ActionStart cfg t2 s1 = some (s2, k2))
    (hp : s2.state = StatePaused) :
    s2.d ≤ s.d := by
  unfold ActionStart at h1
  rw [if_neg (by rw [hs]; decide), if_pos hs] at h1
  rw [Option.some.injEq, Prod.mk.injEq] at h1
  obtain ⟨h1a, h1b⟩ := h1
  subst h1a
  unfold ActionStart at h2
  rw [if_neg (by simp), if_neg (by simp), if_pos rfl] at h2
  by_cases hc : t1 + s.d < t2
  · cases hnm : nextMode cfg
        { mode := s.mode, state := StateStopped, t := t1 + s.d, d := s.d, count := s.count } with
    | none =>
      have hr : RefreshStatus cfg t2
          { s with t := t1 + s.d, state := StateRunning } = none := by
        unfold RefreshStatus
        rw [if_pos rfl, if_pos (show t1 + s.d < t2 from hc), hnm]
      rw [hr] at h2
      exact absurd h2 (by simp)
    | some sx =>
      have hr : RefreshStatus cfg t2
          { s with t := t1 + s.d, state := StateRunning } = some (sx, [Hook.onExpiry]) := by
        unfold RefreshStatus
        rw [if_pos rfl, if_pos (show t1 + s.d < t2 from hc), hnm]
      rw [hr] at h2
      dsimp only at h2
      have hsx : sx.state = StateStopped := (nextMode_fields cfg _ sx hnm).1
      rw [if_neg (by rw [hsx]; decide)] at h2
      rw [Option.some.injEq, Prod.mk.injEq] at h2
      obtain ⟨h2a, h2b⟩ := h2
      rw [← h2a, hsx] at hp
      exact absurd hp (by decide)
  · have hr : RefreshStatus cfg t2 { s with t := t1 + s.d, state := StateRunning } =
        some ({ s with t := t1 + s.d, state := StateRunning }, []) :=
      refresh_not_expired cfg t2 _ (fun hh => hc hh.2)
    rw [hr] at h2
    dsimp only at h2
    rw [if_pos rfl] at h2
    rw [Option.some.injEq, Prod.mk.injEq] at h2
    obtain ⟨h2a, h2b⟩ := h2
    rw [← h2a]
    dsimp only
    omega

/-- C7 witness: pause with 5000ns remaining, resume at 0, pause again at
1000 — the new remaining 4000ns does not exceed the old 5000ns. -/
theorem c7_witness :
    ({ mode := ModeWork, state := StatePaused, t := 5000, d := 4000, count := 0 } : Server).d ≤
      ({ mode := ModeWork, state := StatePaused, t := 0, d := 5000, count := 0 } : Server).d :=
  c7_pause_monotone defaultConfig 0 1000
    { mode := ModeWork, state := StatePaused, t := 0, d := 5000, count := 0 }
    { mode := ModeWork, state := StateRunning, t := 5000, d := 5000, count := 0 }
    { mode := ModeWork, state := StatePaused, t := 5000, d := 4000, count := 0 }
    [Hook.onStart] [] rfl (by decide) (by decide) (by decide) rfl

/-- C8 (confirmed): for every duration, `formatTimer` renders a minutes
component clamped to at most 99 and a seconds component below 60, each
zero-padded to exactly two digits, separated by the given separator (the
caller `formatTimerStr` passes the current mode's separator); a negative
duration renders exactly like zero. -/
theorem c8_format_bounds (d : Int) (sep : String) :
    (∃ m sec : Nat, m ≤ 99 ∧ sec ≤ 59 ∧
      formatTimer d sep = pad2 m ++ sep ++ pad2 sec ∧
      (pad2 m).length = 2 ∧ (pad2 sec).length = 2) ∧
    (d < 0 → formatTimer d sep = formatTimer 0 sep) := by
  rcases lt_or_le d 0 with hdn | hdp
  · refine ⟨⟨0, 0, by omega, by omega, ?_, pad2_length 0 (by omega),
      pad2_length 0 (by omega)⟩, fun _ => by simp [formatTimer, hdn]⟩
    show formatTimer d sep = pad2 (0 : Nat) ++ sep ++ pad2 (0 : Nat)
    simp [formatTimer, hdn]
  · have hcl : (if d < 0 then 0 else d) = d := if_neg (by omega)
    have hm99 : (if d / nsMinute > 99 then 99 else d / nsMinute).toNat ≤ 99 := by
      by_cases h99 : d / nsMinute > 99
      · rw [if_pos h99]
        decide
      · rw [if_neg h99]
        simp only [nsMinute] at h99 ⊢
        omega
    have hs59 : ((d % nsMinute) / nsSecond).toNat ≤ 59 := by
      simp only [nsMinute, nsSecond]
      omega
    refine ⟨⟨_, _, hm99, hs59, ?_, pad2_length _ (by omega), pad2_length _ (by omega)⟩,
      fun hdn => absurd hdn (by omega)⟩
    simp only [formatTimer, hcl]

/-- C8 witness: a negative duration is rendered exactly like the zero
duration. -/
theorem c8_witness : formatTimer (-5) ":" = formatTimer 0 ":" :=
  (c8_format_bounds (-5) ":").2 (by decide)

/-- C9 (confirmed): when the `(text, icon)` pair differs from the last-sent
values, the push notifier sends it, and an immediately following invocation
with the identical pair returns without sending — two consecutive identical
invocations make exactly one outbound call. -/
theorem c9_push_dedup (st : NotifyState) (text icon : String)
    (h : ¬(text = st.lastText ∧ icon = st.lastIcon)) :
    (doRequest st text icon).2 = true ∧
    (doRequest (doRequest st text icon).1 text icon).2 = false := by
  unfold doRequest
  rw [if_neg h]
  dsimp only
  rw [if_pos ⟨rfl, rfl⟩]
  exact ⟨rfl, rfl⟩

/-- C9 witness: a fresh payload is sent once; the repeated identical payload
is suppressed. -/
theorem c9_witness :
    (doRequest { lastText := "", lastIcon := "" } "25:00" "red").2 = true ∧
    (doRequest (doRequest { lastText := "", lastIcon := "" } "25:00" "red").1
      "25:00" "red").2 = false :=
  c9_push_dedup { lastText := "", lastIcon := "" } "25:00" "red" (by decide)

/-- C10 (confirmed): every state reachable from the initial Timer by the
four operations has `mode ∈ {work, short-break, long-break}` and
`state ∈ {[S], [P], [R]}`, and on such states none of the operations — nor
the mode tables `Mode.Duration` / `Mode.Sep`, nor the status projection —
ever reaches a `panic("unexpected")` branch (modelled as `none`). -/
theorem c10_no_panic (cfg : Config) (now : Int) (s : Server) (h : Reach cfg s) :
    ModeOK s ∧ StateOK s ∧
    (ActionStart cfg now s).isSome = true ∧
    (ActionStop cfg now s).isSome = true ∧
    (RefreshStatus cfg now s).isSome = true ∧
    (formatTimerStr cfg now s).isSome = true ∧
    (ModeDuration cfg s.mode).isSome = true ∧
    (ModeSep cfg s.mode).isSome = true := by
  have hv := reach_inv cfg s h
  exact ⟨hv.1, hv.2.1, start_isSome cfg now s hv, stop_isSome cfg now s hv,
    refresh_isSome cfg now s hv, fmtStr_isSome cfg now s hv,
    duration_isSome cfg s hv.1, sep_isSome cfg s hv.1⟩

/-- C10 witness: the panic-freedom conjunction instantiated at the initial
state. -/
theorem c10_witness :
    ModeOK NewServer ∧ StateOK NewServer ∧
    (ActionStart defaultConfig 0 NewServer).isSome = true ∧
    (ActionStop defaultConfig 0 NewServer).isSome = true ∧
    (RefreshStatus defaultConfig 0 NewServer).isSome = true ∧
    (formatTimerStr defaultConfig 0 NewServer).isSome = true ∧
    (ModeDuration defaultConfig NewServer.mode).isSome = true ∧
    (ModeSep defaultConfig NewServer.mode).isSome = true :=
  c10_no_panic defaultConfig 0 NewServer ⟨[], rfl⟩
